import Mathlib

/-
Verification development for BrewGI (src/BrewGI.py), a PyQt front-end for the
Homebrew package manager.  The file shallowly embeds the pieces of the program
the specification talks about: the subprocess adapter functions
(`get_brew_apps`, `search_brew_apps`, `uninstall_brew_app`), the batch
executors (`BrewInstaller.run`, `uninstall_selected`), and the JSON
export / import-and-reconcile workflow (`export_installed_json`,
`import_and_install_json` and the dialog-item loop it contains).

External processes are modelled by an environment `Env` mapping an argv list
to the outcome of running it (an exit code with captured stdout/stderr, or a
failure to launch the process at all).  Python exceptions that the code can
raise or catch are modelled by `PyExn`; a Python function that may raise is
embedded as an `Except PyExn` value.
-/

set_option autoImplicit false

/-- Outcome of one invocation of an external process: either the process ran
and exited with a code (plus captured stdout and stderr), or it could not be
launched at all (e.g. the binary does not exist). -/
inductive ProcResult where
  | exit (code : Int) (stdout : String) (stderr : String)
  | launchFailure (msg : String)
deriving DecidableEq

/-- The Python exceptions relevant to this program: `subprocess.CalledProcessError`
(raised by `check_output` / `check_call` on a non-zero exit) and `OSError`
(raised when the process cannot be launched, e.g. `FileNotFoundError`). -/
inductive PyExn where
  | calledProcessError (code : Int)
  | osError (msg : String)
deriving DecidableEq

/-- An environment assigns to each argv list the outcome of running it. -/
abbrev Env := List String → ProcResult

/-- BrewGI.py line 68. -/
def BREW_PATH : String := "/opt/homebrew/bin/brew"

/-- Helper for Python `str.splitlines`: splits the character list at newline
characters; a final segment after the last newline forms a line only when it
is non-empty.  (Python also recognises other line boundaries such as carriage
returns; the program only ever splits the line-feed-separated output of the
external tool, so only the line feed is modelled.) -/
def splitlinesAux : List Char → List Char → List String
  | [], acc => if acc.isEmpty then [] else [⟨acc.reverse⟩]
  | c :: rest, acc =>
    if c = '\n' then ⟨acc.reverse⟩ :: splitlinesAux rest []
    else splitlinesAux rest (c :: acc)

/-- Python `str.splitlines` (line-feed boundaries). -/
def splitlines (s : String) : List String :=
  splitlinesAux s.data []

/-- Python whitespace characters stripped by `str.strip` (ASCII range, which
covers the diagnostic output captured from the external tool). -/
def isPyWhitespace (c : Char) : Bool :=
  c = ' ' || c = '\t' || c = '\n' || c = '\r' || c = '\x0b' || c = '\x0c'

/-- Python `str.strip()`: remove leading and trailing whitespace. -/
def pyStrip (s : String) : String :=
  ⟨((s.data.dropWhile isPyWhitespace).reverse.dropWhile isPyWhitespace).reverse⟩

/-- Fuel-driven core of Python `str.replace`: replace the non-overlapping
occurrences of `pat`, scanning left to right.  The fuel is the length of the
subject string, which suffices for a non-empty pattern (the one the program
uses); the behaviour of Python `replace` on an empty pattern is not modelled. -/
def pyReplaceFuel (pat rep : List Char) : Nat → List Char → List Char
  | _, [] => []
  | 0, s => s
  | fuel + 1, c :: rest =>
    if pat.isPrefixOf (c :: rest) then
      rep ++ pyReplaceFuel pat rep fuel ((c :: rest).drop pat.length)
    else
      c :: pyReplaceFuel pat rep fuel rest

/-- Python `s.replace(pat, rep)` for a non-empty `pat`. -/
def pyReplace (s pat rep : String) : String :=
  ⟨pyReplaceFuel pat.data rep.data s.data.length s.data⟩

/-- Python `subprocess.check_output(cmd, text=True)`: the captured stdout on a
zero exit, `CalledProcessError` on a non-zero exit, `OSError` when the process
cannot be launched. -/
def check_output (env : Env) (cmd : List String) : Except PyExn String :=
  match env cmd with
  | ProcResult.exit c out _ =>
    if c = 0 then Except.ok out else Except.error (PyExn.calledProcessError c)
  | ProcResult.launchFailure msg => Except.error (PyExn.osError msg)

/-- Python `subprocess.check_call(cmd)`. -/
def check_call (env : Env) (cmd : List String) : Except PyExn Unit :=
  match env cmd with
  | ProcResult.exit c _ _ =>
    if c = 0 then Except.ok () else Except.error (PyExn.calledProcessError c)
  | ProcResult.launchFailure msg => Except.error (PyExn.osError msg)

/-- Python `try: x = body ... except subprocess.CalledProcessError: x = handler`:
only `CalledProcessError` is caught; every other exception keeps propagating. -/
def tryExceptCPE {α : Type} (body : Except PyExn α) (handler : α) : Except PyExn α :=
  match body with
  | Except.error (PyExn.calledProcessError _) => Except.ok handler
  | other => other

/-- Reports whether an embedded Python computation returned normally. -/
def exceptOk {ε α : Type} : Except ε α → Bool
  | Except.ok _ => true
  | Except.error _ => false

/-- BrewGI.py lines 70-79: the two installed categories are queried
independently, each in its own `try` block catching only `CalledProcessError`. -/
def get_brew_apps (env : Env) : Except PyExn (List String × List String) := do
  let cask_apps ← tryExceptCPE ((check_output env [BREW_PATH, "list", "--cask"]).map splitlines) []
  let formula_apps ← tryExceptCPE ((check_output env [BREW_PATH, "list"]).map splitlines) []
  return (cask_apps, formula_apps)

/-- BrewGI.py lines 81-86. -/
def search_brew_apps (env : Env) (query : String) : Except PyExn (List String) :=
  tryExceptCPE ((check_output env [BREW_PATH, "search", query]).map splitlines) []

/-- BrewGI.py lines 88-101: `subprocess.run` does not raise on a non-zero exit,
and the surrounding `try` catches every exception, so this function always
returns a `(success, detail)` pair. -/
def uninstall_brew_app (env : Env) (app : String) : Bool × String :=
  match env [BREW_PATH, "uninstall", "--force", app] with
  | ProcResult.exit c _ err => if c = 0 then (true, "") else (false, pyStrip err)
  | ProcResult.launchFailure msg => (false, msg)

/-- BrewGI.py lines 57-66, the loop body of `BrewInstaller.run`.  `none` means
the loop raised an exception that the `except subprocess.CalledProcessError`
clause does not catch (a launch failure), so the `finished` signal carrying the
two lists is never emitted. -/
def BrewInstaller.runAux (env : Env) :
    List String → List String → List String → Option (List String × List String)
  | [], successes, failures => some (successes, failures)
  | app :: rest, successes, failures =>
    match check_call env ["brew", "install", app] with
    | Except.ok _ => BrewInstaller.runAux env rest (successes ++ [app]) failures
    | Except.error (PyExn.calledProcessError _) =>
        BrewInstaller.runAux env rest successes (failures ++ [app])
    | Except.error (PyExn.osError _) => none

/-- BrewGI.py lines 57-66: `BrewInstaller.run` over the batch `apps`
(note that this loop invokes plain `brew`, not `BREW_PATH`). -/
def BrewInstaller.run (env : Env) (apps : List String) : Option (List String × List String) :=
  BrewInstaller.runAux env apps [] []

/-- Python truthiness of a pair: a tuple is falsy only when it is empty, so a
2-tuple such as the return value of `uninstall_brew_app` is always truthy. -/
def pyTruthyPair (_p : Bool × String) : Bool := true

/-- BrewGI.py lines 307-314, the error-collection loop of `uninstall_selected`:
`success = uninstall_brew_app(app)` binds the whole `(bool, str)` pair and
`if not success:` tests the truthiness of that pair, so the append is guarded
by the pair being falsy.  (The `except` clause is unreachable because
`uninstall_brew_app` never raises.)  Returns the `errors` list. -/
def uninstall_selected (env : Env) (to_uninstall : List String) : List String :=
  to_uninstall.foldl
    (fun errors app =>
      let success := uninstall_brew_app env app
      if pyTruthyPair success = false then errors ++ [app] else errors)
    []

/-- The JSON values `json.load` can produce, as returned to the program
(objects are the already-built Python dicts, so their keys are unique). -/
inductive Json where
  | null
  | bool (b : Bool)
  | num (n : Int)
  | str (s : String)
  | arr (elems : List Json)
  | obj (fields : List (String × Json))

/-- Python `dict.get(key)` on a JSON object: `none` when the key is absent. -/
def pyGet (fields : List (String × Json)) (key : String) : Option Json :=
  (fields.find? (fun kv => kv.fst == key)).map Prod.snd

/-- Python `set(...)` over a JSON array of strings, as applied at BrewGI.py
lines 156-157.  Values that are not arrays of strings are folded into the
failing branch of the surrounding `try` block; they never arise from this
program's own export format. -/
def pySetOfStrings (j : Json) : Option (Finset String) :=
  match j with
  | Json.arr elems =>
    elems.foldr
      (fun e acc =>
        match e, acc with
        | Json.str s, some st => some (insert s st)
        | _, _ => none)
      (some ∅)
  | _ => none

/-- One imported category at BrewGI.py lines 156-157:
`set(data.get(key, []))` — a missing key defaults to the empty list. -/
def jsonField (fields : List (String × Json)) (key : String) : Option (Finset String) :=
  match pyGet fields key with
  | none => some ∅
  | some j => pySetOfStrings j

/-- Outcome of the `try` block at BrewGI.py lines 153-157. -/
inductive ImportParse where
  | failure
  | parsed (import_casks import_formulae : Finset String)
deriving DecidableEq

/-- BrewGI.py lines 153-160: `doc = none` models `json.load` raising (the file
is not valid JSON, e.g. an empty file); a top-level value that is not an
object makes `data.get` raise `AttributeError`; every exception lands in the
`except` branch, modelled as `failure`. -/
def import_try_block (doc : Option Json) : ImportParse :=
  match doc with
  | none => ImportParse.failure
  | some (Json.obj fields) =>
    match jsonField fields "cask", jsonField fields "formula" with
    | some import_casks, some import_formulae => ImportParse.parsed import_casks import_formulae
    | _, _ => ImportParse.failure
  | some _ => ImportParse.failure

/-- One row of the confirmation dialog built at BrewGI.py lines 177-187.  The
widget itself stores only `label`, the `ItemIsEnabled` flag and the check
state; `name` and `already_installed` record the values of `app` and `already`
used to build the row. -/
structure ImportItem where
  name : String
  label : String
  already_installed : Bool
  enabled : Bool
  checked : Bool
deriving DecidableEq

/-- BrewGI.py lines 177-187: the reconciliation loop.  It walks
`sorted(all_imported)` and derives each row's label, enabled flag
(`selectable`) and initial check state (`selected`) from membership in
`already_installed`. -/
def import_dialog_items (all_imported already_installed : Finset String) : List ImportItem :=
  (all_imported.sort (· ≤ ·)).map (fun app =>
    let already : Bool := decide (app ∈ already_installed)
    { name := app
      label := app ++ (if already then " (already installed)" else "")
      already_installed := already
      enabled := !already
      checked := !already })

/-- BrewGI.py lines 198-204: `do_install` collects the rows that are enabled
and checked and recovers each package name from the displayed label by
deleting the substring `" (already installed)"`. -/
def do_install_selected (items : List ImportItem) : List String :=
  (items.filter (fun item => item.enabled && item.checked)).map
    (fun item => pyReplace item.label " (already installed)" "")

/-- BrewGI.py lines 149-187: the import workflow after a file was chosen.
`doc` is the outcome of `json.load`; `cask_apps` / `formula_apps` are the two
lists `get_brew_apps()` returns at line 162.  `none` models the early return
at line 160: the error dialog is shown, no confirmation dialog is opened, no
installer is started and no state is changed. -/
def import_and_install_json (doc : Option Json) (cask_apps formula_apps : List String) :
    Option (List ImportItem) :=
  match import_try_block doc with
  | ImportParse.failure => none
  | ImportParse.parsed import_casks import_formulae =>
    let installed_casks := cask_apps.toFinset
    let installed_formulae := formula_apps.toFinset
    let all_imported := import_casks ∪ import_formulae
    let already_installed := installed_casks ∪ installed_formulae
    some (import_dialog_items all_imported already_installed)

/-- BrewGI.py lines 137-147: the JSON document `export_installed_json` writes
for the current installed lists. -/
def export_installed_json (cask_apps formula_apps : List String) : Json :=
  Json.obj
    [("cask", Json.arr (cask_apps.map Json.str)),
     ("formula", Json.arr (formula_apps.map Json.str))]

/-- Environment in which every external invocation exits with code 0. -/
def envAllExitZero : Env := fun _ => ProcResult.exit 0 "" ""

/-- Environment in which no external process can be launched (the binary is
missing), the situation `subprocess` reports as `FileNotFoundError`. -/
def envLaunchFail : Env := fun _ =>
  ProcResult.launchFailure "[Errno 2] No such file or directory: 'brew'"

/-- Environment in which listing the cask category exits non-zero while the
formula listing succeeds with one line of output. -/
def envCaskListFails : Env := fun cmd =>
  if cmd = [BREW_PATH, "list", "--cask"] then ProcResult.exit 1 "" "Error: boom"
  else if cmd = [BREW_PATH, "list"] then ProcResult.exit 0 "wget\n" ""
  else ProcResult.exit 0 "" ""

/-- Environment in which `brew uninstall --force wget` exits non-zero with a
diagnostic on stderr, and everything else exits 0. -/
def envUninstallFails : Env := fun cmd =>
  if cmd = [BREW_PATH, "uninstall", "--force", "wget"] then
    ProcResult.exit 1 "" " Error: Cask wget is not installed\n"
  else ProcResult.exit 0 "" ""

/-! Helper lemmas (not claim theorems). -/

theorem foldl_fixed {α β : Type} {f : α → β → α} (hf : ∀ a b, f a b = a) :
    ∀ (l : List β) (acc : α), l.foldl f acc = acc
  | [], _ => rfl
  | b :: t, acc => by rw [List.foldl_cons, hf, foldl_fixed hf t]

theorem uninstall_selected_nil (env : Env) (l : List String) :
    uninstall_selected env l = [] := by
  unfold uninstall_selected
  exact foldl_fixed (fun a b => by simp [pyTruthyPair]) l []

theorem import_dialog_items_map_name (D I : Finset String) :
    (import_dialog_items D I).map ImportItem.name = D.sort (· ≤ ·) := by
  rw [import_dialog_items, List.map_map]
  exact List.map_id' _

/-- C1: the claim says every target of an uninstall batch ends up in exactly
one of the success/failure outcomes, with no silent drops.  The code violates
this: `uninstall_selected` binds the whole `(bool, str)` pair returned by
`uninstall_brew_app` and guards `errors.append(app)` with `if not success:`,
which tests the truthiness of a non-empty tuple and is therefore never taken.
At the concrete input below, `brew uninstall --force wget` fails with a
diagnostic, yet the errors list stays empty, so the failure of "wget" is
silently reported as success. -/
theorem c1_uninstall_failure_silently_dropped :
    uninstall_brew_app envUninstallFails "wget" = (false, "Error: Cask wget is not installed")
    ∧ uninstall_selected envUninstallFails ["wget"] = [] :=
  ⟨rfl, uninstall_selected_nil envUninstallFails ["wget"]⟩

/-- C8: importing a file that is not valid JSON (including an empty file, on
which `json.load` raises) reports the failure and aborts: no reconciliation
dialog is produced, no installer is started and no state is changed — the
workflow result is `none` for every installed state. -/
theorem c8_malformed_import_aborts (cask_apps formula_apps : List String) :
    none = import_and_install_json none cask_apps formula_apps := rfl.symm

/-- C2: for every desired set `D` and installed set `I`, the reconciliation
loop produces exactly one dialog entry per element of `D` — no duplicates, no
omissions — sorted in ascending lexical order of the package identifier; the
output is the sorted enumeration of `D`, hence deterministic, so two runs on
identical inputs agree. -/
theorem c2_reconcile_one_sorted_entry_per_element (D I : Finset String) :
    (import_dialog_items D I).map ImportItem.name = D.sort (· ≤ ·)
    ∧ ((import_dialog_items D I).map ImportItem.name).Nodup
    ∧ List.Sorted (· < ·) ((import_dialog_items D I).map ImportItem.name)
    ∧ (∀ a : String, a ∈ (import_dialog_items D I).map ImportItem.name ↔ a ∈ D)
    ∧ (import_dialog_items D I).length = D.card := by
  have h := import_dialog_items_map_name D I
  refine ⟨h, ?_, ?_, ?_, ?_⟩
  · rw [h]; exact D.sort_nodup _
  · rw [h]; exact Finset.sort_sorted_lt D
  · intro a; rw [h]; exact Finset.mem_sort _
  · have hl := congrArg List.length h
    simpa [Finset.length_sort] using hl

/-- C3: in every reconciled entry, `already_installed` holds exactly when the
identifier belongs to the union of the installed cask and formula sets, the
enabled flag (selectability) is its negation, and the initial check state
(selection) equals the enabled flag. -/
theorem c3_flags_derived_from_membership (installed_casks installed_formulae D : Finset String) :
    (import_dialog_items D (installed_casks ∪ installed_formulae)).all
      (fun e =>
        (e.already_installed == decide (e.name ∈ installed_casks ∪ installed_formulae))
        && (e.enabled == !e.already_installed)
        && (e.checked == e.enabled)) = true := by
  rw [List.all_eq_true]
  intro e he
  simp only [import_dialog_items, List.mem_map] at he
  obtain ⟨a, _, rfl⟩ := he
  simp

/-- C5: `get_brew_apps` queries the two categories independently; when the
external tool exits non-zero for one category, that category's result is the
empty list while the other category's result is still the tool's output for
it — the single-category failure is not propagated as a whole-operation
error. -/
theorem c5_category_failure_isolated :
    (∀ (env : Env) (c : Int) (o e o2 e2 : String), c ≠ 0 →
      env [BREW_PATH, "list", "--cask"] = ProcResult.exit c o e →
      env [BREW_PATH, "list"] = ProcResult.exit 0 o2 e2 →
      get_brew_apps env = Except.ok ([], splitlines o2))
    ∧ (∀ (env : Env) (c : Int) (o e o1 e1 : String), c ≠ 0 →
      env [BREW_PATH, "list"] = ProcResult.exit c o e →
      env [BREW_PATH, "list", "--cask"] = ProcResult.exit 0 o1 e1 →
      get_brew_apps env = Except.ok (splitlines o1, [])) := by
  constructor
  · intro env c o e o2 e2 hc h1 h2
    simp [get_brew_apps, check_output, tryExceptCPE, h1, h2, hc, Except.map,
      Except.bind, Bind.bind, Pure.pure, Except.pure]
  · intro env c o e o1 e1 hc h1 h2
    simp [get_brew_apps, check_output, tryExceptCPE, h1, h2, hc, Except.map,
      Except.bind, Bind.bind, Pure.pure, Except.pure]

/-- Witness for C5: in `envCaskListFails` the cask listing exits 1 while the
formula listing outputs one line, and the result keeps the formula lines. -/
theorem c5_category_failure_isolated_witness :
    get_brew_apps envCaskListFails = Except.ok ([], ["wget"]) := by
  have h := c5_category_failure_isolated.1 envCaskListFails 1 "" "Error: boom" "wget\n" ""
    (by decide) rfl rfl
  exact h

/-- C6: `uninstall_brew_app` reports success exactly when the exit code is
zero; on a non-zero exit the detail is the captured stderr text stripped of
surrounding whitespace, and on a launch failure it is the exception message. -/
theorem c6_uninstall_result_from_exit (env : Env) (app : String) :
    (∀ (c : Int) (out err : String),
      env [BREW_PATH, "uninstall", "--force", app] = ProcResult.exit c out err →
      uninstall_brew_app env app = if c = 0 then (true, "") else (false, pyStrip err))
    ∧ (∀ msg : String,
      env [BREW_PATH, "uninstall", "--force", app] = ProcResult.launchFailure msg →
      uninstall_brew_app env app = (false, msg))
    ∧ ((uninstall_brew_app env app).fst = true ↔
      ∃ out err : String, env [BREW_PATH, "uninstall", "--force", app] = ProcResult.exit 0 out err) := by
  refine ⟨?_, ?_, ?_⟩
  · intro c out err h
    by_cases hc : c = 0 <;> simp [uninstall_brew_app, h, hc]
  · intro msg h
    simp [uninstall_brew_app, h]
  · cases hE : env [BREW_PATH, "uninstall", "--force", app] with
    | exit c out err =>
      by_cases hc : c = 0
      · subst hc
        simp only [uninstall_brew_app, hE, if_pos rfl]
        exact ⟨fun _ => ⟨out, err, rfl⟩, fun _ => rfl⟩
      · simp only [uninstall_brew_app, hE, if_neg hc]
        constructor
        · intro h; exact absurd h (by simp)
        · rintro ⟨o', e', h'⟩
          exfalso
          injection h' with h1 h2 h3
          exact hc h1
    | launchFailure msg =>
      simp [uninstall_brew_app, hE]

/-- Witness for C6: when the process cannot be launched, the failure detail is
the exception message. -/
theorem c6_uninstall_result_from_exit_witness :
    uninstall_brew_app envLaunchFail "wget"
      = (false, "[Errno 2] No such file or directory: 'brew'") :=
  (c6_uninstall_result_from_exit envLaunchFail "wget").2.1
    "[Errno 2] No such file or directory: 'brew'" rfl

theorem tryExceptCPE_check_output_ok (env : Env) (cmd : List String) (c : Int) (o e : String)
    (h : env cmd = ProcResult.exit c o e) :
    ∃ r, tryExceptCPE ((check_output env cmd).map splitlines) [] = Except.ok r := by
  by_cases hc : c = 0
  · exact ⟨splitlines o, by simp [check_output, tryExceptCPE, h, hc, Except.map]⟩
  · exact ⟨[], by simp [check_output, tryExceptCPE, h, hc, Except.map]⟩

theorem runAux_isSome (env : Env) :
    ∀ (apps s f : List String),
      (∀ a ∈ apps, ∃ (c : Int) (o e : String), env ["brew", "install", a] = ProcResult.exit c o e) →
      (BrewInstaller.runAux env apps s f).isSome = true
  | [], _, _, _ => rfl
  | a :: t, s, f, hall => by
    obtain ⟨c, o, e, h⟩ := hall a (List.mem_cons_self a t)
    have ht : ∀ x ∈ t, ∃ (c : Int) (o e : String), env ["brew", "install", x] = ProcResult.exit c o e :=
      fun x hx => hall x (List.mem_cons_of_mem a hx)
    by_cases hc : c = 0
    · simp only [BrewInstaller.runAux, check_call, h, if_pos hc]
      exact runAux_isSome env t (s ++ [a]) f ht
    · simp only [BrewInstaller.runAux, check_call, h, if_neg hc]
      exact runAux_isSome env t s (f ++ [a]) ht

/-- C4 counterexample: in `envLaunchFail` no process can be launched, and the
launch failure is NOT converted into a typed failure result by the listing,
search, or batch-install operations — the `OSError` propagates out of
`get_brew_apps` and `search_brew_apps`, and `BrewInstaller.run` dies without
emitting any result.  This refutes the claim that no adapter call ever lets an
unhandled fault propagate to the caller. -/
theorem c4_launch_failure_propagates_counterexample :
    get_brew_apps envLaunchFail
      = Except.error (PyExn.osError "[Errno 2] No such file or directory: 'brew'")
    ∧ search_brew_apps envLaunchFail "wget"
      = Except.error (PyExn.osError "[Errno 2] No such file or directory: 'brew'")
    ∧ BrewInstaller.run envLaunchFail ["wget"] = none :=
  ⟨rfl, rfl, rfl⟩

/-- C4 amended: whenever the external binary actually launches (its failures
are non-zero exits), every adapter operation returns a typed result — an empty
list for the listing and search operations, a per-package failure entry for
installs — and the uninstall operation additionally converts even a
process-launch failure into a typed failure carrying the exception message.
(Only the uninstall wrapper catches launch failures; see the counterexample
for the other operations.) -/
theorem c4_amended_typed_failures (env : Env) :
    ((∃ (c1 : Int) (o1 e1 : String), env [BREW_PATH, "list", "--cask"] = ProcResult.exit c1 o1 e1) →
     (∃ (c2 : Int) (o2 e2 : String), env [BREW_PATH, "list"] = ProcResult.exit c2 o2 e2) →
     exceptOk (get_brew_apps env) = true)
    ∧ (∀ q : String,
       (∃ (c : Int) (o e : String), env [BREW_PATH, "search", q] = ProcResult.exit c o e) →
       exceptOk (search_brew_apps env q) = true)
    ∧ (∀ apps : List String,
       (∀ a ∈ apps, ∃ (c : Int) (o e : String), env ["brew", "install", a] = ProcResult.exit c o e) →
       (BrewInstaller.run env apps).isSome = true)
    ∧ (∀ a msg : String,
       env [BREW_PATH, "uninstall", "--force", a] = ProcResult.launchFailure msg →
       uninstall_brew_app env a = (false, msg)) := by
  refine ⟨?_, ?_, ?_, ?_⟩
  · rintro ⟨c1, o1, e1, h1⟩ ⟨c2, o2, e2, h2⟩
    obtain ⟨r1, hr1⟩ := tryExceptCPE_check_output_ok env _ c1 o1 e1 h1
    obtain ⟨r2, hr2⟩ := tryExceptCPE_check_output_ok env _ c2 o2 e2 h2
    simp [get_brew_apps, hr1, hr2, exceptOk, Except.bind, Bind.bind, Pure.pure, Except.pure]
  · rintro q ⟨c, o, e, h⟩
    obtain ⟨r, hr⟩ := tryExceptCPE_check_output_ok env _ c o e h
    simp [search_brew_apps] at hr ⊢
    simp [hr, exceptOk]
  · intro apps hall
    exact runAux_isSome env apps [] [] hall
  · intro a msg h
    simp [uninstall_brew_app, h]

/-- Witness for the amended C4: all adapter calls return typed results when
every process exits, and a launch failure of the uninstall command is returned
as a typed failure pair. -/
theorem c4_amended_typed_failures_witness :
    exceptOk (get_brew_apps envAllExitZero) = true
    ∧ uninstall_brew_app envLaunchFail "brewgi"
        = (false, "[Errno 2] No such file or directory: 'brew'") :=
  ⟨(c4_amended_typed_failures envAllExitZero).1 ⟨0, "", "", rfl⟩ ⟨0, "", "", rfl⟩,
   (c4_amended_typed_failures envLaunchFail).2.2.2 "brewgi"
     "[Errno 2] No such file or directory: 'brew'" rfl⟩

theorem pySetOfStrings_map_str : ∀ xs : List String,
    pySetOfStrings (Json.arr (xs.map Json.str)) = some xs.toFinset := by
  intro xs
  induction xs with
  | nil => rfl
  | cons x t ih =>
    simp only [pySetOfStrings, List.map_cons, List.foldr_cons] at ih ⊢
    rw [ih]
    simp

/-- C7: the imported desired set is the union of the "cask" and "formula"
arrays with duplicates collapsed (each array becomes a set, and the workflow
takes their union); a missing field defaults to the empty array; unknown
top-level fields are ignored (the parse depends only on the two looked-up
keys); and the spec's example document with `formula = ["wget", "wget"]`
yields the singleton desired set. -/
theorem c7_desired_set_union_defaults :
    (∀ (fields : List (String × Json)) (cs fs : List String),
      pyGet fields "cask" = some (Json.arr (cs.map Json.str)) →
      pyGet fields "formula" = some (Json.arr (fs.map Json.str)) →
      (import_try_block (some (Json.obj fields)) = ImportParse.parsed cs.toFinset fs.toFinset))
    ∧ (∀ fields : List (String × Json),
      pyGet fields "cask" = none → pyGet fields "formula" = none →
      (import_try_block (some (Json.obj fields)) = ImportParse.parsed ∅ ∅))
    ∧ (∀ fields fields' : List (String × Json),
      pyGet fields "cask" = pyGet fields' "cask" →
      pyGet fields "formula" = pyGet fields' "formula" →
      (import_try_block (some (Json.obj fields)) = import_try_block (some (Json.obj fields'))))
    ∧ (∀ (fields : List (String × Json)) (cs fs ca fa : List String),
      pyGet fields "cask" = some (Json.arr (cs.map Json.str)) →
      pyGet fields "formula" = some (Json.arr (fs.map Json.str)) →
      (import_and_install_json (some (Json.obj fields)) ca fa
        = some (import_dialog_items (cs.toFinset ∪ fs.toFinset) (ca.toFinset ∪ fa.toFinset))))
    ∧ (import_try_block (some (Json.obj
        [("cask", Json.arr []), ("formula", Json.arr [Json.str "wget", Json.str "wget"])]))
      = ImportParse.parsed ∅ {"wget"}) := by
  refine ⟨?_, ?_, ?_, ?_, ?_⟩
  · intro fields cs fs h1 h2
    simp [import_try_block, jsonField, h1, h2, pySetOfStrings_map_str]
  · intro fields h1 h2
    simp [import_try_block, jsonField, h1, h2]
  · intro fields fields' h1 h2
    simp only [import_try_block, jsonField]
    rw [h1, h2]
  · intro fields cs fs ca fa h1 h2
    simp [import_and_install_json, import_try_block, jsonField, h1, h2, pySetOfStrings_map_str]
  · decide

/-- Witness for C7: the spec's example document, parsed through the claim's
first conjunct, collapses the duplicated "wget" into a singleton set. -/
theorem c7_desired_set_union_defaults_witness :
    (import_try_block (some (Json.obj
        [("cask", Json.arr []), ("formula", Json.arr [Json.str "wget", Json.str "wget"])]))
      = ImportParse.parsed ([] : List String).toFinset (["wget", "wget"] : List String).toFinset) :=
  c7_desired_set_union_defaults.1 _ [] ["wget", "wget"] rfl rfl

/-- C9: round-trip — exporting any installed cask and formula lists to the
two-field JSON document and importing that document with the installed state
unchanged reconciles every entry as already installed, so no entry is
selectable (enabled) and nothing is pre-checked for installation. -/
theorem c9_export_import_roundtrip (ca fa : List String) :
    ∃ items : List ImportItem,
      (import_and_install_json (some (export_installed_json ca fa)) ca fa = some items)
      ∧ items.all (fun e => e.already_installed && !e.enabled && !e.checked) = true := by
  refine ⟨import_dialog_items (ca.toFinset ∪ fa.toFinset) (ca.toFinset ∪ fa.toFinset), ?_, ?_⟩
  · simp [import_and_install_json, import_try_block, export_installed_json, jsonField, pyGet,
      List.find?, pySetOfStrings_map_str]
  · rw [List.all_eq_true]
    intro e he
    simp only [import_dialog_items, List.mem_map] at he
    obtain ⟨a, ha, rfl⟩ := he
    have hmem : a ∈ ca.toFinset ∪ fa.toFinset := (Finset.mem_sort _).1 ha
    simp [hmem]

theorem do_install_import_items (D I : Finset String) :
    do_install_selected (import_dialog_items D I)
      = ((D.sort (· ≤ ·)).filter (fun a => !decide (a ∈ I))).map
          (fun a => pyReplace a " (already installed)" "") := by
  rw [import_dialog_items]
  generalize D.sort (· ≤ ·) = l
  induction l with
  | nil => rfl
  | cons a t ih =>
    by_cases h : a ∈ I
    · simpa [do_install_selected, h] using ih
    · simpa [do_install_selected, h] using ih

theorem pyReplaceFuel_nil_length_le (pat : List Char) :
    ∀ (fuel : Nat) (s : List Char), (pyReplaceFuel pat [] fuel s).length ≤ s.length := by
  intro fuel
  induction fuel with
  | zero => intro s; cases s <;> simp [pyReplaceFuel]
  | succ n ih =>
    intro s
    cases s with
    | nil => simp [pyReplaceFuel]
    | cons c rest =>
      by_cases h : pat.isPrefixOf (c :: rest)
      · simp only [pyReplaceFuel, if_pos h, List.nil_append]
        have h1 := ih ((c :: rest).drop pat.length)
        have h2 : ((c :: rest).drop pat.length).length = (c :: rest).length - pat.length :=
          List.length_drop _ _
        simp only [List.length_cons] at h2 ⊢
        omega
      · simp only [pyReplaceFuel, if_neg h, List.length_cons]
        exact Nat.succ_le_succ (ih rest)

theorem pyReplaceFuel_nil_length_lt (pat : List Char) (hp : pat ≠ []) :
    ∀ (fuel : Nat) (s : List Char), s.length ≤ fuel →
      (∃ l r, s = l ++ pat ++ r) → (pyReplaceFuel pat [] fuel s).length < s.length := by
  have hplen : 1 ≤ pat.length := by
    cases pat with
    | nil => exact absurd rfl hp
    | cons p ps => simp
  intro fuel
  induction fuel with
  | zero =>
    rintro s hs ⟨l, r, hlr⟩
    cases s with
    | nil =>
      exfalso
      have h1 := List.append_eq_nil.1 hlr.symm
      exact hp (List.append_eq_nil.1 h1.1).2
    | cons c rest => simp at hs
  | succ n ih =>
    rintro s hs ⟨l, r, hlr⟩
    cases s with
    | nil =>
      exfalso
      have h1 := List.append_eq_nil.1 hlr.symm
      exact hp (List.append_eq_nil.1 h1.1).2
    | cons c rest =>
      by_cases h : pat.isPrefixOf (c :: rest)
      · simp only [pyReplaceFuel, if_pos h, List.nil_append]
        have h1 := pyReplaceFuel_nil_length_le pat n ((c :: rest).drop pat.length)
        have h2 : ((c :: rest).drop pat.length).length = (c :: rest).length - pat.length :=
          List.length_drop _ _
        simp only [List.length_cons] at h2 ⊢
        omega
      · cases l with
        | nil =>
          exfalso
          apply h
          rw [List.nil_append] at hlr
          exact List.isPrefixOf_iff_prefix.2 ⟨r, hlr.symm⟩
        | cons b l' =>
          have hrest : rest = l' ++ pat ++ r := by
            have : c :: rest = b :: (l' ++ pat ++ r) := by simpa using hlr
            exact (List.cons.injEq _ _ _ _ ▸ this).2
          simp only [pyReplaceFuel, if_neg h, List.length_cons]
          have hlen : rest.length ≤ n := by
            simp only [List.length_cons] at hs
            omega
          have := ih rest hlen ⟨l', r, hrest⟩
          omega

theorem pyReplace_ne_of_occurs (s pat : String) (hp : pat.data ≠ [])
    (hocc : ∃ l r, s.data = l ++ pat.data ++ r) :
    pyReplace s pat "" ≠ s := by
  intro heq
  have hd : (pyReplaceFuel pat.data [] s.data.length s.data).length = s.data.length :=
    congrArg (fun t => t.data.length) heq
  have hlt := pyReplaceFuel_nil_length_lt pat.data hp s.data.length s.data (le_refl _) hocc
  omega

/-- C10 (implicit behaviour): the names an install batch receives from the
confirmation dialog are exactly the labels of the enabled-and-checked rows with the
substring " (already installed)" deleted; since an enabled (selectable) row's
label is the identifier itself, any selectable identifier that contains that
substring is mangled — the name passed to the installer differs from the
identifier the user imported, and it is the mangled name that is submitted. -/
theorem c10_install_names_recovered_from_labels (D I : Finset String) (app : String)
    (hD : app ∈ D) (hI : app ∉ I)
    (hocc : ∃ l r, app.data = l ++ (" (already installed)").data ++ r) :
    do_install_selected (import_dialog_items D I)
      = ((D.sort (· ≤ ·)).filter (fun a => !decide (a ∈ I))).map
          (fun a => pyReplace a " (already installed)" "")
    ∧ pyReplace app " (already installed)" "" ≠ app
    ∧ pyReplace app " (already installed)" ""
        ∈ do_install_selected (import_dialog_items D I) := by
  refine ⟨do_install_import_items D I,
    pyReplace_ne_of_occurs app _ (by decide) hocc, ?_⟩
  rw [do_install_import_items]
  apply List.mem_map_of_mem
  rw [List.mem_filter]
  exact ⟨(Finset.mem_sort _).2 hD, by simp [hI]⟩

/-- Witness for C10: importing the identifier "wget (already installed)" on a
machine with nothing installed submits a different name to the installer. -/
theorem c10_install_names_recovered_from_labels_witness :
    pyReplace "wget (already installed)" " (already installed)" "" ≠ "wget (already installed)"
    ∧ pyReplace "wget (already installed)" " (already installed)" ""
        ∈ do_install_selected
            (import_dialog_items {"wget (already installed)"} (∅ : Finset String)) := by
  have h := c10_install_names_recovered_from_labels {"wget (already installed)"} ∅
    "wget (already installed)" (by decide) (by decide) ⟨"wget".data, [], by decide⟩
  exact ⟨h.2.1, h.2.2⟩

/-- Witness for C2 at a concrete desired set: one dialog entry per element. -/
theorem c2_reconcile_one_sorted_entry_per_element_witness :
    (import_dialog_items {"wget"} (∅ : Finset String)).length
      = ({"wget"} : Finset String).card :=
  (c2_reconcile_one_sorted_entry_per_element {"wget"} ∅).2.2.2.2
